import Mathlib

/-!
Shallow embedding of the pull lexer in `src/reader/lexer.rs` of the xml-rs
library: the token type with its textual rendering, the lexer state machine,
and the `next_token` driver with one-character pushback and end-of-stream
finalization.  The input buffer is modelled as a `List Char`; the machine
`usize` row/column counters are modelled as `Nat`, and the possibly
underflowing unsigned subtraction `self.col - chunk.len() - 1` in
`handle_error` is modelled as the exact subtraction over `Int`, so that a
negative reported column witnesses an underflow of the original computation.
-/

namespace XmlLexer

/-- Tokens of the lexer, from `enum Token`.  `Chunk` carries the fragment
string used for error recovery. -/
inductive Token where
  | ProcessingInstructionStart
  | ProcessingInstructionEnd
  | DoctypeStart
  | OpeningTagStart
  | ClosingTagStart
  | TagEnd
  | EmptyTagEnd
  | CommentStart
  | CommentEnd
  | Chunk (s : String)
  | Character (c : Char)
  | Whitespace (c : Char)
  | EqualsSign
  | SingleQuote
  | DoubleQuote
  | CDataStart
  | CDataEnd
  | ReferenceStart
  | ReferenceEnd
deriving DecidableEq

/-- Textual rendering of a token, from `impl fmt::String for Token`:
`Chunk` renders as its carried text, `Character` and `Whitespace` as their
carried character, every other token as its fixed text. -/
def Token.render : Token → List Char
  | .Chunk s => s.data
  | .Character c => [c]
  | .Whitespace c => [c]
  | .OpeningTagStart => "<".data
  | .ProcessingInstructionStart => "<?".data
  | .DoctypeStart => "<!DOCTYPE".data
  | .ClosingTagStart => "</".data
  | .CommentStart => "<!--".data
  | .CDataStart => "<![CDATA[".data
  | .TagEnd => ">".data
  | .EmptyTagEnd => "/>".data
  | .ProcessingInstructionEnd => "?>".data
  | .CommentEnd => "-->".data
  | .CDataEnd => "]]>".data
  | .ReferenceStart => "&".data
  | .ReferenceEnd => ";".data
  | .EqualsSign => "=".data
  | .SingleQuote => [Char.ofNat 39]
  | .DoubleQuote => [Char.ofNat 34]

/-- Substate of the two-character closers `--`/`]]`, from `enum ClosingSubstate`. -/
inductive ClosingSubstate where
  | First
  | Second
deriving DecidableEq

/-- Progress through `<!DOCTYPE`, from `enum DoctypeStartedSubstate`. -/
inductive DoctypeStartedSubstate where
  | D
  | DO
  | DOC
  | DOCT
  | DOCTY
  | DOCTYP
deriving DecidableEq

/-- Progress through `<![CDATA[`, from `enum CDataStartedSubstate`. -/
inductive CDataStartedSubstate where
  | E
  | C
  | CD
  | CDA
  | CDAT
  | CDATA
deriving DecidableEq

/-- Lexer state, from `enum State`. -/
inductive State where
  | TagOpened
  | CommentOrCDataOrDoctypeStarted
  | CommentStarted
  | DoctypeStarted (s : DoctypeStartedSubstate)
  | CDataStarted (s : CDataStartedSubstate)
  | ProcessingInstructionClosing
  | EmptyTagClosing
  | CommentClosing (s : ClosingSubstate)
  | CDataClosing (s : ClosingSubstate)
  | Normal
deriving DecidableEq

/-- The fixed fragment of input pending in a given state, i.e. the chunk
that `handle_error` would be called with from that state (empty for states
that error with no pending fragment). -/
def State.chunkOf : State → String
  | .Normal => ""
  | .TagOpened => "<"
  | .CommentOrCDataOrDoctypeStarted => "<!"
  | .CommentStarted => "<!-"
  | .CDataStarted .E => "<!["
  | .CDataStarted .C => "<![C"
  | .CDataStarted .CD => "<![CD"
  | .CDataStarted .CDA => "<![CDA"
  | .CDataStarted .CDAT => "<![CDAT"
  | .CDataStarted .CDATA => "<![CDATA"
  | .DoctypeStarted .D => "<!D"
  | .DoctypeStarted .DO => "<!DO"
  | .DoctypeStarted .DOC => "<!DOC"
  | .DoctypeStarted .DOCT => "<!DOCT"
  | .DoctypeStarted .DOCTY => "<!DOCTY"
  | .DoctypeStarted .DOCTYP => "<!DOCTYP"
  | .ProcessingInstructionClosing => "?"
  | .EmptyTagClosing => "/"
  | .CommentClosing .First => "-"
  | .CommentClosing .Second => "--"
  | .CDataClosing .First => "]"
  | .CDataClosing .Second => "]]"

/-- The pending fragment of a state as a character list. -/
def State.pendingOf (st : State) : List Char := st.chunkOf.data

/-- Structured error, from `common::Error`: row, column and message.  The
column is an `Int` so that the unsigned underflow in `handle_error` is
observable as a negative value. -/
structure Error where
  row : Nat
  col : Int
  msg : String
deriving DecidableEq

/-- Result of one lexing step, from `pub type LexResult = Result<Token, Error>`. -/
inductive LexResult where
  | ok (t : Token)
  | error (e : Error)
deriving DecidableEq

/-- One internal step: `None` means "more input needed", from `type LexStep`. -/
abbrev LexStep := Option LexResult

/-- Modelled from the spec: `is_whitespace_char` lives in the `common` module,
which is not part of the source under verification; the spec calls the class
"XML whitespace" (space, tab, newline, carriage return). -/
def is_whitespace_char (c : Char) : Bool :=
  c = ' ' || c = '\t' || c = '\n' || c = '\r'

/-- Modelled from the spec: `is_name_char` lives in the `common` module, which
is not part of the source under verification; the spec describes the class as
"a name-start character".  This follows XML NameStartChar on the ASCII range
(colon, underscore, letters) and accepts every character above the ASCII range. -/
def is_name_char (c : Char) : Bool :=
  c = ':' || c = '_' || ('A' ≤ c && c ≤ 'Z') || ('a' ≤ c && c ≤ 'z') || 127 < c.toNat

/-- The lexer instance, from `pub struct PullLexer`. -/
structure PullLexer where
  row : Nat
  col : Nat
  temp_char : Option Char
  st : State
  skip_errors : Bool
  eof_handled : Bool
deriving DecidableEq

/-- A fresh lexer with default state, from `pub fn new()`. -/
def new : PullLexer :=
  { row := 0, col := 0, temp_char := none, st := State.Normal,
    skip_errors := false, eof_handled := false }

/-- From `enable_errors`: selects strict mode. -/
def enable_errors (l : PullLexer) : PullLexer := { l with skip_errors := false }

/-- From `disable_errors`: selects lenient mode. -/
def disable_errors (l : PullLexer) : PullLexer := { l with skip_errors := true }

/-- Message of the end-of-stream error in `next_token`. -/
def eosMsg : String := "Unexpected end of stream"

/-- From the private method `error`: an error at the current position. -/
def PullLexer.error (l : PullLexer) (msg : String) : Error :=
  { row := l.row, col := (l.col : Int), msg := msg }

/-- From `move_to`: change state, emit nothing. -/
def move_to (l : PullLexer) (st : State) : PullLexer × LexStep :=
  ({ l with st := st }, none)

/-- From `move_to_with`: change state and emit a token. -/
def move_to_with (l : PullLexer) (st : State) (t : Token) : PullLexer × LexStep :=
  ({ l with st := st }, some (.ok t))

/-- From `move_to_with_unread`: save the character for the next call, change
state and emit a token. -/
def move_to_with_unread (l : PullLexer) (st : State) (c : Char) (t : Token) :
    PullLexer × LexStep :=
  move_to_with { l with temp_char := some c } st t

/-- From `handle_error`: save the offending character; in lenient mode emit
the fragment as a `Chunk` and reset to `Normal`, in strict mode report an
error whose column is the current column minus the fragment length minus one. -/
def handle_error (l : PullLexer) (chunk : String) (c : Char) : PullLexer × LexStep :=
  let l1 := { l with temp_char := some c }
  if l1.skip_errors then
    move_to_with l1 State.Normal (Token.Chunk chunk)
  else
    (l1, some (.error
      { row := l1.row, col := (l1.col : Int) - chunk.length - 1,
        msg := "Unexpected token " ++ chunk ++ " before " ++ String.singleton c }))

/-- From `normal`: classification of a character in the default state. -/
def normal (l : PullLexer) (c : Char) : PullLexer × LexStep :=
  if c = '<' then move_to l State.TagOpened
  else if c = '>' then (l, some (.ok Token.TagEnd))
  else if c = '/' then move_to l State.EmptyTagClosing
  else if c = '=' then (l, some (.ok Token.EqualsSign))
  else if c = Char.ofNat 34 then (l, some (.ok Token.DoubleQuote))
  else if c = Char.ofNat 39 then (l, some (.ok Token.SingleQuote))
  else if c = '?' then move_to l State.ProcessingInstructionClosing
  else if c = '-' then move_to l (State.CommentClosing ClosingSubstate.First)
  else if c = ']' then move_to l (State.CDataClosing ClosingSubstate.First)
  else if c = '&' then (l, some (.ok Token.ReferenceStart))
  else if c = ';' then (l, some (.ok Token.ReferenceEnd))
  else if is_whitespace_char c then (l, some (.ok (Token.Whitespace c)))
  else (l, some (.ok (Token.Character c)))

/-- From `tag_opened`: the character after `<`. -/
def tag_opened (l : PullLexer) (c : Char) : PullLexer × LexStep :=
  if c = '?' then move_to_with l State.Normal Token.ProcessingInstructionStart
  else if c = '/' then move_to_with l State.Normal Token.ClosingTagStart
  else if c = '!' then move_to l State.CommentOrCDataOrDoctypeStarted
  else if is_whitespace_char c then
    move_to_with_unread l State.Normal c Token.OpeningTagStart
  else if is_name_char c then
    move_to_with_unread l State.Normal c Token.OpeningTagStart
  else handle_error l ("<") c

/-- From `comment_or_cdata_or_doctype_started`: the character after `<!`. -/
def comment_or_cdata_or_doctype_started (l : PullLexer) (c : Char) :
    PullLexer × LexStep :=
  if c = '-' then move_to l State.CommentStarted
  else if c = '[' then move_to l (State.CDataStarted CDataStartedSubstate.E)
  else if c = 'D' then move_to l (State.DoctypeStarted DoctypeStartedSubstate.D)
  else handle_error l ("<!") c

/-- From `comment_started`: the character after `<!-`. -/
def comment_started (l : PullLexer) (c : Char) : PullLexer × LexStep :=
  if c = '-' then move_to_with l State.Normal Token.CommentStart
  else handle_error l ("<!-") c

/-- From `cdata_started` (expansion of the `dispatch_on_enum_state!` macro):
progressive match of `<![CDATA[`. -/
def cdata_started (l : PullLexer) (c : Char) (s : CDataStartedSubstate) :
    PullLexer × LexStep :=
  match s with
  | .E =>
    if c = 'C' then move_to l (State.CDataStarted .C) else handle_error l ("<![") c
  | .C =>
    if c = 'D' then move_to l (State.CDataStarted .CD) else handle_error l ("<![C") c
  | .CD =>
    if c = 'A' then move_to l (State.CDataStarted .CDA) else handle_error l ("<![CD") c
  | .CDA =>
    if c = 'T' then move_to l (State.CDataStarted .CDAT) else handle_error l ("<![CDA") c
  | .CDAT =>
    if c = 'A' then move_to l (State.CDataStarted .CDATA) else handle_error l ("<![CDAT") c
  | .CDATA =>
    if c = '[' then move_to_with l State.Normal Token.CDataStart
    else handle_error l ("<![CDATA") c

/-- From `doctype_started` (expansion of the `dispatch_on_enum_state!` macro):
progressive match of `<!DOCTYPE`. -/
def doctype_started (l : PullLexer) (c : Char) (s : DoctypeStartedSubstate) :
    PullLexer × LexStep :=
  match s with
  | .D =>
    if c = 'O' then move_to l (State.DoctypeStarted .DO) else handle_error l ("<!D") c
  | .DO =>
    if c = 'C' then move_to l (State.DoctypeStarted .DOC) else handle_error l ("<!DO") c
  | .DOC =>
    if c = 'T' then move_to l (State.DoctypeStarted .DOCT) else handle_error l ("<!DOC") c
  | .DOCT =>
    if c = 'Y' then move_to l (State.DoctypeStarted .DOCTY) else handle_error l ("<!DOCT") c
  | .DOCTY =>
    if c = 'P' then move_to l (State.DoctypeStarted .DOCTYP) else handle_error l ("<!DOCTY") c
  | .DOCTYP =>
    if c = 'E' then move_to_with l State.Normal Token.DoctypeStart
    else handle_error l ("<!DOCTYP") c

/-- From `processing_instruction_closing`: the character after `?`. -/
def processing_instruction_closing (l : PullLexer) (c : Char) : PullLexer × LexStep :=
  if c = '>' then move_to_with l State.Normal Token.ProcessingInstructionEnd
  else move_to_with_unread l State.Normal c (Token.Character '?')

/-- From `empty_element_closing`: the character after `/`. -/
def empty_element_closing (l : PullLexer) (c : Char) : PullLexer × LexStep :=
  if c = '>' then move_to_with l State.Normal Token.EmptyTagEnd
  else move_to_with_unread l State.Normal c (Token.Character '/')

/-- From `comment_closing`: the characters after `-`. -/
def comment_closing (l : PullLexer) (c : Char) (s : ClosingSubstate) :
    PullLexer × LexStep :=
  match s with
  | .First =>
    if c = '-' then move_to l (State.CommentClosing .Second)
    else move_to_with_unread l State.Normal c (Token.Character '-')
  | .Second =>
    if c = '>' then move_to_with l State.Normal Token.CommentEnd
    else move_to_with_unread l State.Normal c (Token.Chunk ("--"))

/-- From `cdata_closing`: the characters after `]`. -/
def cdata_closing (l : PullLexer) (c : Char) (s : ClosingSubstate) :
    PullLexer × LexStep :=
  match s with
  | .First =>
    if c = ']' then move_to l (State.CDataClosing .Second)
    else move_to_with_unread l State.Normal c (Token.Character ']')
  | .Second =>
    if c = '>' then move_to_with l State.Normal Token.CDataEnd
    else move_to_with_unread l State.Normal c (Token.Chunk ("]]"))

/-- From `dispatch_char`: dispatch on the current state. -/
def dispatch_char (l : PullLexer) (c : Char) : PullLexer × LexStep :=
  match l.st with
  | State.Normal => normal l c
  | State.TagOpened => tag_opened l c
  | State.CommentOrCDataOrDoctypeStarted => comment_or_cdata_or_doctype_started l c
  | State.CommentStarted => comment_started l c
  | State.CDataStarted s => cdata_started l c s
  | State.DoctypeStarted s => doctype_started l c s
  | State.ProcessingInstructionClosing => processing_instruction_closing l c
  | State.EmptyTagClosing => empty_element_closing l c
  | State.CommentClosing s => comment_closing l c s
  | State.CDataClosing s => cdata_closing l c s

/-- The position update at the start of `read_next_token`: newline increments
the row and resets the column, any other character increments the column. -/
def posUpdate (l : PullLexer) (c : Char) : PullLexer :=
  if c = '\n' then { l with row := l.row + 1, col := 0 }
  else { l with col := l.col + 1 }

/-- From `read_next_token`: update the position, then dispatch. -/
def read_next_token (l : PullLexer) (c : Char) : PullLexer × LexStep :=
  dispatch_char (posUpdate l c) c

/-- The loop of `next_token` over the buffer, including the end-of-stream
finalization performed when the buffer is exhausted. -/
def next_token_loop (l : PullLexer) (b : List Char) :
    Option LexResult × PullLexer × List Char :=
  match b with
  | c :: rest =>
    match read_next_token l c with
    | (l1, some t) => (some t, l1, rest)
    | (l1, none) => next_token_loop l1 rest
  | [] =>
    let l1 := { l with eof_handled := true }
    match l.st with
    | State.TagOpened | State.CommentOrCDataOrDoctypeStarted | State.CommentStarted
    | State.CDataStarted _ | State.DoctypeStarted _
    | State.CommentClosing ClosingSubstate.Second =>
      (some (.error (l1.error eosMsg)), l1, [])
    | State.ProcessingInstructionClosing => (some (.ok (Token.Character '?')), l1, [])
    | State.EmptyTagClosing => (some (.ok (Token.Character '/')), l1, [])
    | State.CommentClosing ClosingSubstate.First =>
      (some (.ok (Token.Character '-')), l1, [])
    | State.CDataClosing ClosingSubstate.First =>
      (some (.ok (Token.Character ']')), l1, [])
    | State.CDataClosing ClosingSubstate.Second =>
      (some (.ok (Token.Chunk ("]]"))), l1, [])
    | State.Normal => (none, l1, [])

/-- From `next_token`: if end of stream was already handled, report
exhaustion; otherwise process the saved pushback character first, then pull
characters from the buffer.  Returns the step, the updated lexer, and the
remaining buffer. -/
def next_token (l : PullLexer) (b : List Char) :
    Option LexResult × PullLexer × List Char :=
  if l.eof_handled then (none, l, b)
  else
    match l.temp_char with
    | some c =>
      let l0 := { l with temp_char := none }
      match read_next_token l0 c with
      | (l1, some t) => (some t, l1, b)
      | (l1, none) => next_token_loop l1 b
    | none => next_token_loop l b

/-- Repeated `next_token` calls until exhaustion, with explicit fuel; returns
the list of results and the final lexer. -/
def lexRun : Nat → PullLexer → List Char → List LexResult × PullLexer
  | 0, l, _ => ([], l)
  | fuel + 1, l, b =>
    match next_token l b with
    | (none, l1, _) => ([], l1)
    | (some r, l1, b1) =>
      let p := lexRun fuel l1 b1
      (r :: p.1, p.2)

/-- Concatenation of the textual rendering of the `ok` tokens of a run. -/
def renderedOut : List LexResult → List Char
  | [] => []
  | .ok t :: rs => t.render ++ renderedOut rs
  | .error _ :: rs => renderedOut rs

/-- Whether a result is an error. -/
def isErrR : LexResult → Bool
  | .error _ => true
  | .ok _ => false

/-- The characters dropped by a run: the pending fragment of the final state
when the run reported an error, nothing otherwise. -/
def droppedRun (p : List LexResult × PullLexer) : List Char :=
  if p.1.any isErrR then p.2.st.pendingOf else []

/-- The characters held by a lexer between calls: the pending fragment of its
state plus the pushback character (nothing once end of stream is handled). -/
def carry (l : PullLexer) : List Char :=
  if l.eof_handled then [] else l.st.pendingOf ++ l.temp_char.toList

/-- Fuel measure: strictly decreases across `next_token` calls. -/
def fuelMeasure (l : PullLexer) (b : List Char) : Nat :=
  2 * b.length + (if l.temp_char.isSome then 1 else 0) +
    (if l.eof_handled then 0 else 1)

/-- A full lenient-mode run of an input from a fresh lexer. -/
def lexLenient (s : List Char) : List LexResult × PullLexer :=
  lexRun (2 * s.length + 2) (disable_errors new) s

/-- A full default-mode (strict) run of an input from a fresh lexer. -/
def lexDefault (s : List Char) : List LexResult × PullLexer :=
  lexRun (2 * s.length + 2) new s

/-- Whether a character is one of the characters treated specially by
`normal` (the state-entering and directly-emitting markup characters). -/
def isPlainChar (c : Char) : Bool :=
  !(c = '<' || c = '>' || c = '/' || c = '=' || c = Char.ofNat 34 ||
    c = Char.ofNat 39 || c = '?' || c = '-' || c = ']' || c = '&' || c = ';')

/-- Whether a character is a lexical mismatch in a given state, i.e. makes
the dispatch for that state call `handle_error`. -/
def mismatch : State → Char → Bool
  | .Normal, _ => false
  | .TagOpened, c =>
    !(c = '?' || c = '/' || c = '!' || is_whitespace_char c || is_name_char c)
  | .CommentOrCDataOrDoctypeStarted, c => !(c = '-' || c = '[' || c = 'D')
  | .CommentStarted, c => !(c = '-')
  | .CDataStarted .E, c => !(c = 'C')
  | .CDataStarted .C, c => !(c = 'D')
  | .CDataStarted .CD, c => !(c = 'A')
  | .CDataStarted .CDA, c => !(c = 'T')
  | .CDataStarted .CDAT, c => !(c = 'A')
  | .CDataStarted .CDATA, c => !(c = '[')
  | .DoctypeStarted .D, c => !(c = 'O')
  | .DoctypeStarted .DO, c => !(c = 'C')
  | .DoctypeStarted .DOC, c => !(c = 'T')
  | .DoctypeStarted .DOCT, c => !(c = 'Y')
  | .DoctypeStarted .DOCTY, c => !(c = 'P')
  | .DoctypeStarted .DOCTYP, c => !(c = 'E')
  | .ProcessingInstructionClosing, _ => false
  | .EmptyTagClosing, _ => false
  | .CommentClosing _, _ => false
  | .CDataClosing _, _ => false

/-- Specification of one `dispatch_char` step: the mode flag, the
end-of-stream flag and the position are untouched; a `none` step extends the
pending fragment by the character just read; an `ok` step resets the state to
`Normal` and accounts for the pending fragment plus the character as the
token's rendering plus the possible pushback; an `error` step happens only in
strict mode, leaves the state untouched, saves the character as pushback and
reports the documented message and column. -/
def DispatchSpec (l : PullLexer) (c : Char) (l1 : PullLexer) (step : LexStep) : Prop :=
  l1.skip_errors = l.skip_errors ∧ l1.eof_handled = l.eof_handled ∧
  l1.row = l.row ∧ l1.col = l.col ∧
  match step with
  | none =>
    l1.temp_char = l.temp_char ∧ l1.st.pendingOf = l.st.pendingOf ++ [c] ∧ c ≠ '\n'
  | some (.ok t) =>
    l1.st = State.Normal ∧
    l.st.pendingOf ++ [c] = t.render ++ l1.temp_char.toList ∧
    (l.st = State.Normal → l1.temp_char = l.temp_char)
  | some (.error e) =>
    l.skip_errors = false ∧ l1.st = l.st ∧ l1.temp_char = some c ∧
    e.row = l.row ∧ e.col = (l.col : Int) - l.st.chunkOf.length - 1 ∧
    e.msg = "Unexpected token " ++ l.st.chunkOf ++ " before " ++ String.singleton c ∧
    mismatch l.st c = true

/-- Specification of one `next_token_loop` run in lenient mode, entered with
no pushback and end of stream not yet handled: `consumed` is the piece of the
buffer that was read.  A `none` outcome happens only at end of stream in the
`Normal` state; an `ok` outcome accounts for the pending fragment plus the
consumed characters as the token's rendering plus the new carry; an `error`
outcome is the end-of-stream error, and the pending fragment plus the
consumed characters are exactly the final state's pending fragment. -/
def LoopPost (l : PullLexer) (consumed : List Char) (step : Option LexResult)
    (l1 : PullLexer) (b1 : List Char) : Prop :=
  l1.skip_errors = l.skip_errors ∧
  match step with
  | none =>
    b1 = [] ∧ consumed = [] ∧ l.st = State.Normal ∧ l1.eof_handled = true ∧
    l1.temp_char = l.temp_char ∧ l1.st = State.Normal
  | some (.ok t) =>
    l.st.pendingOf ++ consumed = t.render ++ carry l1 ∧
    (l1.eof_handled = false → l1.st = State.Normal ∧ consumed ≠ []) ∧
    (l1.eof_handled = true → b1 = [] ∧ l1.temp_char = l.temp_char)
  | some (.error e) =>
    l.st.pendingOf ++ consumed = l1.st.pendingOf ∧ e.msg = eosMsg ∧
    l1.eof_handled = true ∧ l1.temp_char = l.temp_char ∧ b1 = []

/-- Specification of one lenient-mode `next_token` call: `consumed` is the
piece of the buffer that was read, and the pre-call carry plus the consumed
characters are accounted for by the emitted token's rendering plus the
post-call carry (an `error` outcome is the end-of-stream error, whose pending
fragment is dropped from the rendered output). -/
def CallPost (l : PullLexer) (consumed : List Char) (step : Option LexResult)
    (l1 : PullLexer) (b1 : List Char) : Prop :=
  l1.skip_errors = l.skip_errors ∧
  (l1.eof_handled = false → ∀ d, l1.temp_char = some d → l1.st = State.Normal) ∧
  (l1.eof_handled = true → b1 = [] ∧ l1.temp_char = none) ∧
  match step with
  | none => carry l ++ consumed = [] ∧ l1.eof_handled = true
  | some (.ok t) => carry l ++ consumed = t.render ++ carry l1
  | some (.error e) =>
    carry l ++ consumed = l1.st.pendingOf ∧ e.msg = eosMsg ∧ l1.eof_handled = true

theorem pending_normal : State.Normal.pendingOf = [] := rfl

theorem pending_tag_opened : State.TagOpened.pendingOf = ['<'] := rfl

theorem pending_ccd : State.CommentOrCDataOrDoctypeStarted.pendingOf = ['<', '!'] := rfl

theorem pending_comment_started : State.CommentStarted.pendingOf = ['<', '!', '-'] := rfl

theorem pending_cd_e : (State.CDataStarted .E).pendingOf = ['<', '!', '['] := rfl

theorem pending_cd_c : (State.CDataStarted .C).pendingOf = ['<', '!', '[', 'C'] := rfl

theorem pending_cd_cd : (State.CDataStarted .CD).pendingOf = ['<', '!', '[', 'C', 'D'] := rfl

theorem pending_cd_cda : (State.CDataStarted .CDA).pendingOf = ['<', '!', '[', 'C', 'D', 'A'] := rfl

theorem pending_cd_cdat :
    (State.CDataStarted .CDAT).pendingOf = ['<', '!', '[', 'C', 'D', 'A', 'T'] := rfl

theorem pending_cd_cdata :
    (State.CDataStarted .CDATA).pendingOf = ['<', '!', '[', 'C', 'D', 'A', 'T', 'A'] := rfl

theorem pending_dt_d : (State.DoctypeStarted .D).pendingOf = ['<', '!', 'D'] := rfl

theorem pending_dt_do : (State.DoctypeStarted .DO).pendingOf = ['<', '!', 'D', 'O'] := rfl

theorem pending_dt_doc : (State.DoctypeStarted .DOC).pendingOf = ['<', '!', 'D', 'O', 'C'] := rfl

theorem pending_dt_doct :
    (State.DoctypeStarted .DOCT).pendingOf = ['<', '!', 'D', 'O', 'C', 'T'] := rfl

theorem pending_dt_docty :
    (State.DoctypeStarted .DOCTY).pendingOf = ['<', '!', 'D', 'O', 'C', 'T', 'Y'] := rfl

theorem pending_dt_doctyp :
    (State.DoctypeStarted .DOCTYP).pendingOf = ['<', '!', 'D', 'O', 'C', 'T', 'Y', 'P'] := rfl

theorem pending_pi : State.ProcessingInstructionClosing.pendingOf = ['?'] := rfl

theorem pending_empty : State.EmptyTagClosing.pendingOf = ['/'] := rfl

theorem pending_cc_first : (State.CommentClosing .First).pendingOf = ['-'] := rfl

theorem pending_cc_second : (State.CommentClosing .Second).pendingOf = ['-', '-'] := rfl

theorem pending_cdc_first : (State.CDataClosing .First).pendingOf = [']'] := rfl

theorem pending_cdc_second : (State.CDataClosing .Second).pendingOf = [']', ']'] := rfl

theorem render_chunk_lt : (Token.Chunk ("<")).render = ['<'] := rfl

theorem render_chunk_ltbang : (Token.Chunk ("<!")).render = ['<', '!'] := rfl

theorem render_chunk_ltbangdash : (Token.Chunk ("<!-")).render = ['<', '!', '-'] := rfl

theorem render_chunk_cd0 : (Token.Chunk ("<![")).render = ['<', '!', '['] := rfl

theorem render_chunk_cd1 : (Token.Chunk ("<![C")).render = ['<', '!', '[', 'C'] := rfl

theorem render_chunk_cd2 : (Token.Chunk ("<![CD")).render = ['<', '!', '[', 'C', 'D'] := rfl

theorem render_chunk_cd3 : (Token.Chunk ("<![CDA")).render = ['<', '!', '[', 'C', 'D', 'A'] := rfl

theorem render_chunk_cd4 :
    (Token.Chunk ("<![CDAT")).render = ['<', '!', '[', 'C', 'D', 'A', 'T'] := rfl

theorem render_chunk_cd5 :
    (Token.Chunk ("<![CDATA")).render = ['<', '!', '[', 'C', 'D', 'A', 'T', 'A'] := rfl

theorem render_chunk_dt0 : (Token.Chunk ("<!D")).render = ['<', '!', 'D'] := rfl

theorem render_chunk_dt1 : (Token.Chunk ("<!DO")).render = ['<', '!', 'D', 'O'] := rfl

theorem render_chunk_dt2 : (Token.Chunk ("<!DOC")).render = ['<', '!', 'D', 'O', 'C'] := rfl

theorem render_chunk_dt3 : (Token.Chunk ("<!DOCT")).render = ['<', '!', 'D', 'O', 'C', 'T'] := rfl

theorem render_chunk_dt4 :
    (Token.Chunk ("<!DOCTY")).render = ['<', '!', 'D', 'O', 'C', 'T', 'Y'] := rfl

theorem render_chunk_dt5 :
    (Token.Chunk ("<!DOCTYP")).render = ['<', '!', 'D', 'O', 'C', 'T', 'Y', 'P'] := rfl

theorem render_chunk_dashes : (Token.Chunk ("--")).render = ['-', '-'] := rfl

theorem render_chunk_brackets : (Token.Chunk ("]]")).render = [']', ']'] := rfl

theorem render_pi_start : Token.ProcessingInstructionStart.render = ['<', '?'] := rfl

theorem render_pi_end : Token.ProcessingInstructionEnd.render = ['?', '>'] := rfl

theorem render_doctype : Token.DoctypeStart.render = "<!DOCTYPE".data := rfl

theorem render_doctype_list :
    Token.DoctypeStart.render = ['<', '!', 'D', 'O', 'C', 'T', 'Y', 'P', 'E'] := rfl

theorem render_opening : Token.OpeningTagStart.render = ['<'] := rfl

theorem render_closing : Token.ClosingTagStart.render = ['<', '/'] := rfl

theorem render_comment_start : Token.CommentStart.render = ['<', '!', '-', '-'] := rfl

theorem render_comment_end : Token.CommentEnd.render = ['-', '-', '>'] := rfl

theorem render_cdata_start :
    Token.CDataStart.render = ['<', '!', '[', 'C', 'D', 'A', 'T', 'A', '['] := rfl

theorem render_cdata_end : Token.CDataEnd.render = [']', ']', '>'] := rfl

theorem render_tag_end : Token.TagEnd.render = ['>'] := rfl

theorem render_empty_tag_end : Token.EmptyTagEnd.render = ['/', '>'] := rfl

theorem render_ref_start : Token.ReferenceStart.render = ['&'] := rfl

theorem render_ref_end : Token.ReferenceEnd.render = [';'] := rfl

theorem render_equals : Token.EqualsSign.render = ['='] := rfl

theorem render_single_quote : Token.SingleQuote.render = [Char.ofNat 39] := rfl

theorem render_double_quote : Token.DoubleQuote.render = [Char.ofNat 34] := rfl

theorem render_character (c : Char) : (Token.Character c).render = [c] := rfl

theorem render_whitespace (c : Char) : (Token.Whitespace c).render = [c] := rfl

attribute [simp] pending_normal pending_tag_opened pending_ccd
  pending_comment_started pending_cd_e pending_cd_c pending_cd_cd
  pending_cd_cda pending_cd_cdat pending_cd_cdata pending_dt_d pending_dt_do
  pending_dt_doc pending_dt_doct pending_dt_docty pending_dt_doctyp
  pending_pi pending_empty pending_cc_first pending_cc_second
  pending_cdc_first pending_cdc_second render_chunk_lt render_chunk_ltbang
  render_chunk_ltbangdash render_chunk_cd0 render_chunk_cd1 render_chunk_cd2
  render_chunk_cd3 render_chunk_cd4 render_chunk_cd5 render_chunk_dt0
  render_chunk_dt1 render_chunk_dt2 render_chunk_dt3 render_chunk_dt4
  render_chunk_dt5 render_chunk_dashes render_chunk_brackets render_pi_start
  render_pi_end render_doctype_list render_opening render_closing
  render_comment_start render_comment_end render_cdata_start render_cdata_end
  render_tag_end render_empty_tag_end render_ref_start render_ref_end
  render_equals render_single_quote render_double_quote render_character
  render_whitespace

theorem normal_disp (l : PullLexer) (c : Char) (htemp : l.temp_char = none)
    (hst : l.st = State.Normal) :
    DispatchSpec l c (normal l c).1 (normal l c).2 := by
  by_cases h1 : c = '<'
  · rw [show normal l c = ({ l with st := State.TagOpened }, none) from by
      simp [normal, move_to, h1]]
    exact ⟨rfl, rfl, rfl, rfl, rfl, by simp [hst, h1], by subst h1; decide⟩
  by_cases h2 : c = '>'
  · rw [show normal l c = (l, some (.ok Token.TagEnd)) from by
      simp [normal, h1, h2]]
    exact ⟨rfl, rfl, rfl, rfl, hst, by simp [hst, htemp, h2], fun _ => rfl⟩
  by_cases h3 : c = '/'
  · rw [show normal l c = ({ l with st := State.EmptyTagClosing }, none) from by
      simp [normal, move_to, h1, h2, h3]]
    exact ⟨rfl, rfl, rfl, rfl, rfl, by simp [hst, h3], by subst h3; decide⟩
  by_cases h4 : c = '='
  · rw [show normal l c = (l, some (.ok Token.EqualsSign)) from by
      simp [normal, h1, h2, h3, h4]]
    exact ⟨rfl, rfl, rfl, rfl, hst, by simp [hst, htemp, h4], fun _ => rfl⟩
  by_cases h5 : c = Char.ofNat 34
  · rw [show normal l c = (l, some (.ok Token.DoubleQuote)) from by
      simp [normal, h1, h2, h3, h4, h5]]
    exact ⟨rfl, rfl, rfl, rfl, hst, by simp [hst, htemp, h5], fun _ => rfl⟩
  by_cases h6 : c = Char.ofNat 39
  · rw [show normal l c = (l, some (.ok Token.SingleQuote)) from by
      simp [normal, h1, h2, h3, h4, h5, h6]]
    exact ⟨rfl, rfl, rfl, rfl, hst, by simp [hst, htemp, h6], fun _ => rfl⟩
  by_cases h7 : c = '?'
  · rw [show normal l c = ({ l with st := State.ProcessingInstructionClosing }, none) from by
      simp [normal, move_to, h1, h2, h3, h4, h5, h6, h7]]
    exact ⟨rfl, rfl, rfl, rfl, rfl, by simp [hst, h7], by subst h7; decide⟩
  by_cases h8 : c = '-'
  · rw [show normal l c =
        ({ l with st := State.CommentClosing ClosingSubstate.First }, none) from by
      simp [normal, move_to, h1, h2, h3, h4, h5, h6, h7, h8]]
    exact ⟨rfl, rfl, rfl, rfl, rfl, by simp [hst, h8], by subst h8; decide⟩
  by_cases h9 : c = ']'
  · rw [show normal l c =
        ({ l with st := State.CDataClosing ClosingSubstate.First }, none) from by
      simp [normal, move_to, h1, h2, h3, h4, h5, h6, h7, h8, h9]]
    exact ⟨rfl, rfl, rfl, rfl, rfl, by simp [hst, h9], by subst h9; decide⟩
  by_cases h10 : c = '&'
  · rw [show normal l c = (l, some (.ok Token.ReferenceStart)) from by
      simp [normal, h1, h2, h3, h4, h5, h6, h7, h8, h9, h10]]
    exact ⟨rfl, rfl, rfl, rfl, hst, by simp [hst, htemp, h10], fun _ => rfl⟩
  by_cases h11 : c = ';'
  · rw [show normal l c = (l, some (.ok Token.ReferenceEnd)) from by
      simp [normal, h1, h2, h3, h4, h5, h6, h7, h8, h9, h10, h11]]
    exact ⟨rfl, rfl, rfl, rfl, hst, by simp [hst, htemp, h11], fun _ => rfl⟩
  by_cases h12 : is_whitespace_char c
  · rw [show normal l c = (l, some (.ok (Token.Whitespace c))) from by
      simp [normal, h1, h2, h3, h4, h5, h6, h7, h8, h9, h10, h11, h12]]
    exact ⟨rfl, rfl, rfl, rfl, hst, by simp [hst, htemp], fun _ => rfl⟩
  · rw [show normal l c = (l, some (.ok (Token.Character c))) from by
      simp [normal, h1, h2, h3, h4, h5, h6, h7, h8, h9, h10, h11, h12]]
    exact ⟨rfl, rfl, rfl, rfl, hst, by simp [hst, htemp], fun _ => rfl⟩

theorem tag_opened_disp (l : PullLexer) (c : Char) (htemp : l.temp_char = none)
    (hst : l.st = State.TagOpened) :
    DispatchSpec l c (tag_opened l c).1 (tag_opened l c).2 := by
  simp only [tag_opened, move_to, move_to_with, move_to_with_unread, handle_error]
  split_ifs <;> simp_all [DispatchSpec, State.chunkOf, mismatch] <;> try decide

theorem ccd_disp (l : PullLexer) (c : Char) (htemp : l.temp_char = none)
    (hst : l.st = State.CommentOrCDataOrDoctypeStarted) :
    DispatchSpec l c (comment_or_cdata_or_doctype_started l c).1
      (comment_or_cdata_or_doctype_started l c).2 := by
  simp only [comment_or_cdata_or_doctype_started, move_to, move_to_with, handle_error]
  split_ifs <;> simp_all [DispatchSpec, State.chunkOf, mismatch] <;> try decide

theorem comment_started_disp (l : PullLexer) (c : Char) (htemp : l.temp_char = none)
    (hst : l.st = State.CommentStarted) :
    DispatchSpec l c (comment_started l c).1 (comment_started l c).2 := by
  simp only [comment_started, move_to_with, handle_error]
  split_ifs <;> simp_all [DispatchSpec, State.chunkOf, mismatch] <;> try decide

theorem cdata_started_disp (l : PullLexer) (c : Char) (s : CDataStartedSubstate)
    (htemp : l.temp_char = none) (hst : l.st = State.CDataStarted s) :
    DispatchSpec l c (cdata_started l c s).1 (cdata_started l c s).2 := by
  cases s <;>
    simp only [cdata_started, move_to, move_to_with, handle_error] <;>
    split_ifs <;> simp_all [DispatchSpec, State.chunkOf, mismatch] <;> try decide

theorem doctype_started_disp (l : PullLexer) (c : Char) (s : DoctypeStartedSubstate)
    (htemp : l.temp_char = none) (hst : l.st = State.DoctypeStarted s) :
    DispatchSpec l c (doctype_started l c s).1 (doctype_started l c s).2 := by
  cases s <;>
    simp only [doctype_started, move_to, move_to_with, handle_error] <;>
    split_ifs <;> simp_all [DispatchSpec, State.chunkOf, mismatch] <;> try decide

theorem pi_closing_disp (l : PullLexer) (c : Char) (htemp : l.temp_char = none)
    (hst : l.st = State.ProcessingInstructionClosing) :
    DispatchSpec l c (processing_instruction_closing l c).1
      (processing_instruction_closing l c).2 := by
  simp only [processing_instruction_closing, move_to_with, move_to_with_unread]
  split_ifs <;> simp_all [DispatchSpec] <;> try decide

theorem empty_closing_disp (l : PullLexer) (c : Char) (htemp : l.temp_char = none)
    (hst : l.st = State.EmptyTagClosing) :
    DispatchSpec l c (empty_element_closing l c).1 (empty_element_closing l c).2 := by
  simp only [empty_element_closing, move_to_with, move_to_with_unread]
  split_ifs <;> simp_all [DispatchSpec] <;> try decide

theorem comment_closing_disp (l : PullLexer) (c : Char) (s : ClosingSubstate)
    (htemp : l.temp_char = none) (hst : l.st = State.CommentClosing s) :
    DispatchSpec l c (comment_closing l c s).1 (comment_closing l c s).2 := by
  cases s <;>
    simp only [comment_closing, move_to, move_to_with, move_to_with_unread] <;>
    split_ifs <;> simp_all [DispatchSpec] <;> try decide

theorem cdata_closing_disp (l : PullLexer) (c : Char) (s : ClosingSubstate)
    (htemp : l.temp_char = none) (hst : l.st = State.CDataClosing s) :
    DispatchSpec l c (cdata_closing l c s).1 (cdata_closing l c s).2 := by
  cases s <;>
    simp only [cdata_closing, move_to, move_to_with, move_to_with_unread] <;>
    split_ifs <;> simp_all [DispatchSpec] <;> try decide

theorem posUpdate_st (l : PullLexer) (c : Char) : (posUpdate l c).st = l.st := by
  unfold posUpdate; split <;> rfl

theorem posUpdate_temp (l : PullLexer) (c : Char) :
    (posUpdate l c).temp_char = l.temp_char := by
  unfold posUpdate; split <;> rfl

theorem posUpdate_skip (l : PullLexer) (c : Char) :
    (posUpdate l c).skip_errors = l.skip_errors := by
  unfold posUpdate; split <;> rfl

theorem posUpdate_eof (l : PullLexer) (c : Char) :
    (posUpdate l c).eof_handled = l.eof_handled := by
  unfold posUpdate; split <;> rfl

theorem posUpdate_row (l : PullLexer) (c : Char) :
    (posUpdate l c).row = if c = '\n' then l.row + 1 else l.row := by
  unfold posUpdate; split <;> simp_all

theorem posUpdate_col (l : PullLexer) (c : Char) :
    (posUpdate l c).col = if c = '\n' then 0 else l.col + 1 := by
  unfold posUpdate; split <;> simp_all

theorem dispatch_spec (l : PullLexer) (c : Char) (htemp : l.temp_char = none) :
    DispatchSpec l c (dispatch_char l c).1 (dispatch_char l c).2 := by
  cases hst : l.st
  case Normal => simpa only [dispatch_char, hst] using normal_disp l c htemp hst
  case TagOpened => simpa only [dispatch_char, hst] using tag_opened_disp l c htemp hst
  case CommentOrCDataOrDoctypeStarted =>
    simpa only [dispatch_char, hst] using ccd_disp l c htemp hst
  case CommentStarted =>
    simpa only [dispatch_char, hst] using comment_started_disp l c htemp hst
  case CDataStarted s =>
    simpa only [dispatch_char, hst] using cdata_started_disp l c s htemp hst
  case DoctypeStarted s =>
    simpa only [dispatch_char, hst] using doctype_started_disp l c s htemp hst
  case ProcessingInstructionClosing =>
    simpa only [dispatch_char, hst] using pi_closing_disp l c htemp hst
  case EmptyTagClosing =>
    simpa only [dispatch_char, hst] using empty_closing_disp l c htemp hst
  case CommentClosing s =>
    simpa only [dispatch_char, hst] using comment_closing_disp l c s htemp hst
  case CDataClosing s =>
    simpa only [dispatch_char, hst] using cdata_closing_disp l c s htemp hst

theorem read_spec (l : PullLexer) (c : Char) (htemp : l.temp_char = none) :
    DispatchSpec (posUpdate l c) c (read_next_token l c).1 (read_next_token l c).2 :=
  dispatch_spec (posUpdate l c) c (by rw [posUpdate_temp, htemp])

theorem loop_lenient (b : List Char) :
    ∀ l : PullLexer, l.skip_errors = true → l.eof_handled = false →
      l.temp_char = none →
      ∃ consumed, b = consumed ++ (next_token_loop l b).2.2 ∧
        LoopPost l consumed (next_token_loop l b).1 (next_token_loop l b).2.1
          (next_token_loop l b).2.2 := by
  induction b with
  | nil =>
    intro l hse heof htemp
    refine ⟨[], ?_, ?_⟩ <;>
      cases hst : l.st <;> (try (rename_i s; cases s)) <;>
        simp_all [next_token_loop, LoopPost, carry, PullLexer.error]
  | cons c rest ih =>
    intro l hse heof htemp
    have hd := read_spec l c htemp
    rcases hr : read_next_token l c with ⟨l1, step⟩
    rw [hr] at hd
    simp only [DispatchSpec, posUpdate_st, posUpdate_skip, posUpdate_eof,
      posUpdate_temp] at hd
    cases step with
    | some t =>
      have hres : next_token_loop l (c :: rest) = (some t, l1, rest) := by
        simp [next_token_loop, hr]
      rw [hres]
      cases t with
      | ok tok =>
        obtain ⟨hskip, heof1, hrow, hcol, hstN, hpend, -⟩ := hd
        refine ⟨[c], by simp, hskip, ?_, ?_, ?_⟩
        · rw [hpend]; simp [carry, heof1, heof, hstN]
        · exact fun _ => ⟨hstN, by simp⟩
        · intro h; rw [heof1, heof] at h; exact absurd h (by simp)
      | error e =>
        exact absurd (hd.2.2.2.2.1) (by simp [hse])
    | none =>
      have hres : next_token_loop l (c :: rest) = next_token_loop l1 rest := by
        simp [next_token_loop, hr]
      rw [hres]
      obtain ⟨hskip, heof1, hrow, hcol, htemp1, hpend, hnl⟩ := hd
      obtain ⟨consumed2, hb, hpost⟩ :=
        ih l1 (by rw [hskip, hse]) (by rw [heof1, heof]) (by rw [htemp1, htemp])
      refine ⟨c :: consumed2, by simpa using hb, ?_⟩
      obtain ⟨hskip2, hmatch⟩ := hpost
      refine ⟨by rw [hskip2, hskip], ?_⟩
      rcases hs2 : (next_token_loop l1 rest).1 with _ | t2
      · rw [hs2] at hmatch
        exfalso
        have hN : l1.st = State.Normal := hmatch.2.2.1
        rw [hN, pending_normal] at hpend
        exact absurd hpend.symm (by simp)
      · rw [hs2] at hmatch
        cases t2 with
        | ok tok =>
          obtain ⟨hm1, hm2, hm3⟩ := hmatch
          refine ⟨?_, ?_, ?_⟩
          · rw [show State.pendingOf l.st ++ (c :: consumed2) =
                (State.pendingOf l.st ++ [c]) ++ consumed2 by simp]
            rw [← hpend]
            exact hm1
          · intro h
            exact ⟨(hm2 h).1, by simp⟩
          · intro h
            exact ⟨(hm3 h).1, ((hm3 h).2).trans htemp1⟩
        | error e =>
          obtain ⟨hm1, hm2, hm3, hm4, hm5⟩ := hmatch
          refine ⟨?_, hm2, hm3, hm4.trans htemp1, hm5⟩
          rw [show State.pendingOf l.st ++ (c :: consumed2) =
              (State.pendingOf l.st ++ [c]) ++ consumed2 by simp]
          rw [← hpend]
          exact hm1

theorem tempBit_le (l : PullLexer) : (if l.temp_char.isSome then 1 else 0) ≤ 1 := by
  split <;> omega

theorem call_lenient (l : PullLexer) (b : List Char) (hse : l.skip_errors = true)
    (heof : l.eof_handled = false)
    (hinv : ∀ d, l.temp_char = some d → l.st = State.Normal) :
    ∃ consumed, b = consumed ++ (next_token l b).2.2 ∧
      CallPost l consumed (next_token l b).1 (next_token l b).2.1
        (next_token l b).2.2 ∧
      fuelMeasure (next_token l b).2.1 (next_token l b).2.2 < fuelMeasure l b := by
  rcases htc : l.temp_char with _ | d
  · -- no pushback: the call is exactly the loop
    have hnt : next_token l b = next_token_loop l b := by
      simp [next_token, heof, htc]
    rw [hnt]
    obtain ⟨consumed, hb, hpost⟩ := loop_lenient b l hse heof htc
    obtain ⟨hskip, hmatch⟩ := hpost
    have hcarry : carry l = l.st.pendingOf := by simp [carry, heof, htc]
    refine ⟨consumed, hb, ?_⟩
    rcases hs : (next_token_loop l b).1 with _ | t
    · rw [hs] at hmatch
      obtain ⟨hb1, hc0, hstN, heof1, htemp1, -⟩ := hmatch
      refine ⟨⟨hskip, ?_, ?_, ?_, heof1⟩, ?_⟩
      · intro h; rw [heof1] at h; exact absurd h (by simp)
      · exact fun _ => ⟨hb1, htemp1.trans htc⟩
      · rw [hcarry, hc0, hstN, pending_normal]; rfl
      · have htn : (next_token_loop l b).2.1.temp_char = none := htemp1.trans htc
        simp only [fuelMeasure, hb1, heof1, heof, htc, htn, Option.isSome_none,
          Bool.false_eq_true, if_false, if_true, List.length_nil]
        omega
    · rw [hs] at hmatch
      cases t with
      | ok tok =>
        obtain ⟨hm1, hm2, hm3⟩ := hmatch
        refine ⟨⟨hskip, ?_, ?_, ?_⟩, ?_⟩
        · exact fun h d' _ => (hm2 h).1
        · exact fun h => ⟨(hm3 h).1, ((hm3 h).2).trans htc⟩
        · rw [hcarry]; exact hm1
        · cases heof2 : (next_token_loop l b).2.1.eof_handled
          · -- still mid-stream: at least one character was consumed
            have hne : consumed ≠ [] := (hm2 heof2).2
            have hlen : b.length = consumed.length + (next_token_loop l b).2.2.length := by
              have h := congrArg List.length hb
              rwa [List.length_append] at h
            have hcl : 1 ≤ consumed.length := List.length_pos.mpr hne
            have hbit := tempBit_le (next_token_loop l b).2.1
            simp only [fuelMeasure, heof, heof2, htc]
            simp only [Option.isSome_none, Bool.false_eq_true, if_false, if_true]
            omega
          · have hb1 : (next_token_loop l b).2.2 = [] := (hm3 heof2).1
            have htemp1 : (next_token_loop l b).2.1.temp_char = none :=
              ((hm3 heof2).2).trans htc
            simp only [fuelMeasure, heof, heof2, htc, hb1, htemp1, Option.isSome_none,
              Bool.false_eq_true, if_false, if_true, List.length_nil]
            omega
      | error e =>
        obtain ⟨hm1, hm2, hm3, hm4, hm5⟩ := hmatch
        refine ⟨⟨hskip, ?_, ?_, ?_, hm2, hm3⟩, ?_⟩
        · intro h; rw [hm3] at h; exact absurd h (by simp)
        · exact fun _ => ⟨hm5, hm4.trans htc⟩
        · rw [hcarry]; exact hm1
        · have htn : (next_token_loop l b).2.1.temp_char = none := hm4.trans htc
          simp only [fuelMeasure, heof, htc, hm3, hm5, htn, Option.isSome_none,
            Bool.false_eq_true, if_false, if_true, List.length_nil]
          omega
  · -- pushback character first
    have hstN : l.st = State.Normal := hinv d htc
    have hd := read_spec { l with temp_char := none, eof_handled := false } d rfl
    rcases hr : read_next_token { l with temp_char := none, eof_handled := false } d
      with ⟨l1, step⟩
    rw [hr] at hd
    simp only [DispatchSpec, posUpdate_st, posUpdate_skip, posUpdate_eof,
      posUpdate_temp] at hd
    have hcarry : carry l = [d] := by simp [carry, heof, htc, hstN]
    cases step with
    | some t =>
      cases t with
      | ok tok =>
        have hnt : next_token l b = (some (.ok tok), l1, b) := by
          simp [next_token, heof, htc, hr]
        rw [hnt]
        obtain ⟨hskip, heof1, hrow, hcol, hstN1, hpend, himp⟩ := hd
        have htemp1 : l1.temp_char = none := himp hstN
        refine ⟨[], by simp, ⟨hskip, ?_, ?_, ?_⟩, ?_⟩
        · intro h d' hd'
          rw [htemp1] at hd'
          exact absurd hd' (by simp)
        · intro h; rw [heof1] at h; exact absurd h (by simp)
        · show carry l ++ [] = tok.render ++ carry l1
          rw [hcarry, List.append_nil]
          have h2 := hpend
          rw [hstN, pending_normal, htemp1] at h2
          simp only [Option.toList, List.append_nil, List.nil_append] at h2
          rw [← h2]
          simp [carry, heof1, hstN1, htemp1]
        · have he1 : l1.eof_handled = false := heof1
          simp only [fuelMeasure, heof, he1, htc, htemp1, Option.isSome_none,
            Option.isSome_some, Bool.false_eq_true, if_false, if_true]
          omega
      | error e =>
        exact absurd hd.2.2.2.2.1 (by simp [hse])
    | none =>
      have hnt : next_token l b = next_token_loop l1 b := by
        simp [next_token, heof, htc, hr]
      rw [hnt]
      obtain ⟨hskip, heof1, hrow, hcol, htemp1, hpend, hnl⟩ := hd
      have hpend1 : l1.st.pendingOf = [d] := by
        rw [hpend, hstN, pending_normal]; rfl
      obtain ⟨consumed2, hb, hpost⟩ :=
        loop_lenient b l1 (by rw [hskip, hse]) (by rw [heof1]) htemp1
      obtain ⟨hskip2, hmatch⟩ := hpost
      refine ⟨consumed2, hb, ?_⟩
      rcases hs : (next_token_loop l1 b).1 with _ | t2
      · rw [hs] at hmatch
        exfalso
        have hN : l1.st = State.Normal := hmatch.2.2.1
        rw [hN, pending_normal] at hpend1
        exact absurd hpend1 (by simp)
      · rw [hs] at hmatch
        cases t2 with
        | ok tok =>
          obtain ⟨hm1, hm2, hm3⟩ := hmatch
          refine ⟨⟨hskip2.trans hskip, ?_, ?_, ?_⟩, ?_⟩
          · exact fun h d' _ => (hm2 h).1
          · exact fun h => ⟨(hm3 h).1, ((hm3 h).2).trans htemp1⟩
          · rw [hcarry, ← hpend1]; exact hm1
          · cases heof2 : (next_token_loop l1 b).2.1.eof_handled
            · have hne : consumed2 ≠ [] := (hm2 heof2).2
              have hlen : b.length = consumed2.length + (next_token_loop l1 b).2.2.length := by
                have h := congrArg List.length hb
                rwa [List.length_append] at h
              have hcl : 1 ≤ consumed2.length := List.length_pos.mpr hne
              have hbit := tempBit_le (next_token_loop l1 b).2.1
              simp only [fuelMeasure, heof, heof2, htc]
              simp only [Option.isSome_none, Option.isSome_some, Bool.false_eq_true,
                if_false, if_true]
              omega
            · have hb1 : (next_token_loop l1 b).2.2 = [] := (hm3 heof2).1
              have htempf : (next_token_loop l1 b).2.1.temp_char = none :=
                ((hm3 heof2).2).trans htemp1
              simp only [fuelMeasure, heof, heof2, htc, hb1, htempf, Option.isSome_none,
                Option.isSome_some, Bool.false_eq_true, if_false, if_true, List.length_nil]
              omega
        | error e =>
          obtain ⟨hm1, hm2, hm3, hm4, hm5⟩ := hmatch
          refine ⟨⟨hskip2.trans hskip, ?_, ?_, ?_, hm2, hm3⟩, ?_⟩
          · intro h; rw [hm3] at h; exact absurd h (by simp)
          · exact fun _ => ⟨hm5, hm4.trans htemp1⟩
          · rw [hcarry, ← hpend1]; exact hm1
          · have htempf : (next_token_loop l1 b).2.1.temp_char = none := hm4.trans htemp1
            simp only [fuelMeasure, heof, hm3, htc, hm5, htempf, Option.isSome_none,
              Option.isSome_some, Bool.false_eq_true, if_false, if_true, List.length_nil]
            omega

theorem lexRun_eof (fuel : Nat) (l : PullLexer) (b : List Char)
    (h : l.eof_handled = true) : lexRun fuel l b = ([], l) := by
  cases fuel with
  | zero => rfl
  | succ f => simp [lexRun, next_token, h]

theorem renderedOut_cons_ok (t : Token) (rs : List LexResult) :
    renderedOut (LexResult.ok t :: rs) = t.render ++ renderedOut rs := rfl

theorem renderedOut_cons_err (e : Error) (rs : List LexResult) :
    renderedOut (LexResult.error e :: rs) = renderedOut rs := rfl

theorem droppedRun_cons_ok (t : Token) (rs : List LexResult) (lf : PullLexer) :
    droppedRun (LexResult.ok t :: rs, lf) = droppedRun (rs, lf) := by
  simp [droppedRun, isErrR]

theorem run_lenient (fuel : Nat) :
    ∀ (l : PullLexer) (b : List Char), fuelMeasure l b ≤ fuel →
      l.skip_errors = true → (l.eof_handled = true → b = []) →
      (l.eof_handled = false → ∀ d, l.temp_char = some d → l.st = State.Normal) →
      renderedOut (lexRun fuel l b).1 ++ droppedRun (lexRun fuel l b) = carry l ++ b := by
  induction fuel with
  | zero =>
    intro l b hfuel hse hbe hinv
    cases he : l.eof_handled
    · simp only [fuelMeasure, he, Bool.false_eq_true, if_false] at hfuel
      omega
    · have hb := hbe he
      subst hb
      simp [lexRun, renderedOut, droppedRun, carry, he]
  | succ f ih =>
    intro l b hfuel hse hbe hinv
    cases he : l.eof_handled
    case true =>
      have hb := hbe he
      subst hb
      rw [lexRun_eof _ _ _ he]
      simp [renderedOut, droppedRun, carry, he]
    case false =>
      obtain ⟨consumed, hb, hpost, hless⟩ := call_lenient l b hse he (hinv he)
      rcases hnt : next_token l b with ⟨step, l1, b1⟩
      rw [hnt] at hb hpost hless
      dsimp only at hb hpost hless
      obtain ⟨hskip, hinv1, heof1imp, hmatch⟩ := hpost
      cases step with
      | none =>
        obtain ⟨hC0, heof1⟩ := hmatch
        have hb1 : b1 = [] := (heof1imp heof1).1
        have hrun : lexRun (f + 1) l b = ([], l1) := by simp [lexRun, hnt]
        rw [hrun]
        simp only [renderedOut, droppedRun, List.any_nil, if_false, Bool.false_eq_true,
          List.nil_append]
        rw [hb, hb1, List.append_nil, hC0]
      | some r =>
        cases r with
        | ok tok =>
          have hrun : lexRun (f + 1) l b =
              (LexResult.ok tok :: (lexRun f l1 b1).1, (lexRun f l1 b1).2) := by
            simp [lexRun, hnt]
          rw [hrun]
          have hih := ih l1 b1 (by omega) (hskip.trans hse)
            (fun h => (heof1imp h).1) hinv1
          rw [renderedOut_cons_ok]
          have hdr : droppedRun ((lexRun f l1 b1).1, (lexRun f l1 b1).2) =
              droppedRun (lexRun f l1 b1) := rfl
          rw [droppedRun_cons_ok]
          have hC : carry l ++ consumed = tok.render ++ carry l1 := hmatch
          rw [hdr, List.append_assoc, hih, hb, ← List.append_assoc, ← hC,
            List.append_assoc]
        | error e =>
          obtain ⟨hC, hmsg, heof1⟩ := hmatch
          have hb1 : b1 = [] := (heof1imp heof1).1
          have hrun : lexRun (f + 1) l b = ([LexResult.error e], l1) := by
            simp [lexRun, hnt, lexRun_eof f l1 b1 heof1]
          rw [hrun]
          simp only [renderedOut_cons_err, renderedOut, droppedRun, List.any_cons,
            isErrR, Bool.true_or, if_true, List.nil_append]
          rw [hb, hb1, List.append_nil, hC]

theorem loop_err_msg (b : List Char) :
    ∀ (l : PullLexer) (e : Error), l.skip_errors = true → l.temp_char = none →
      (next_token_loop l b).1 = some (LexResult.error e) → e.msg = eosMsg := by
  induction b with
  | nil =>
    intro l e hse htemp h
    cases hst : l.st <;> (try (rename_i s; cases s)) <;>
      simp_all [next_token_loop, PullLexer.error, eosMsg] <;>
      rw [← h]
  | cons c rest ih =>
    intro l e hse htemp h
    have hd := read_spec l c htemp
    rcases hr : read_next_token l c with ⟨l1, step⟩
    rw [hr] at hd
    simp only [DispatchSpec, posUpdate_st, posUpdate_skip, posUpdate_eof,
      posUpdate_temp] at hd
    rw [next_token_loop] at h
    rw [hr] at h
    cases step with
    | some t =>
      cases t with
      | ok tok => simp at h
      | error e2 => exact absurd hd.2.2.2.2.1 (by simp [hse])
    | none => exact ih l1 e (hd.1.trans hse) (hd.2.2.2.2.1.trans htemp) h

theorem plain_run (s : List Char) :
    ∀ (fuel : Nat) (l : PullLexer), s.length < fuel → l.st = State.Normal →
      l.temp_char = none → l.eof_handled = false →
      (∀ c ∈ s, isPlainChar c = true) →
      (lexRun fuel l s).1 = s.map (fun c =>
        LexResult.ok
          (if is_whitespace_char c then Token.Whitespace c else Token.Character c)) := by
  induction s with
  | nil =>
    intro fuel l hf hst htemp heof hpl
    cases fuel with
    | zero => omega
    | succ f => simp [lexRun, next_token, heof, htemp, next_token_loop, hst]
  | cons c rest ih =>
    intro fuel l hf hst htemp heof hpl
    cases fuel with
    | zero => omega
    | succ f =>
      have hc : isPlainChar c = true := hpl c (by simp)
      simp only [isPlainChar, Bool.not_eq_true', Bool.or_eq_false_iff,
        decide_eq_false_iff_not] at hc
      obtain ⟨⟨⟨⟨⟨⟨⟨⟨⟨⟨h1, h2⟩, h3⟩, h4⟩, h5⟩, h6⟩, h7⟩, h8⟩, h9⟩, h10⟩, h11⟩ := hc
      have hstep : read_next_token l c = (posUpdate l c,
          some (LexResult.ok
            (if is_whitespace_char c then Token.Whitespace c else Token.Character c))) := by
        have hpst : (posUpdate l c).st = State.Normal := by rw [posUpdate_st, hst]
        show dispatch_char (posUpdate l c) c = _
        rw [dispatch_char]
        rw [hpst]
        by_cases hw : is_whitespace_char c <;>
          simp [normal, h1, h2, h3, h4, h5, h6, h7, h8, h9, h10, h11, hw]
      have hnt : next_token l (c :: rest) =
          (some (LexResult.ok
            (if is_whitespace_char c then Token.Whitespace c else Token.Character c)),
           posUpdate l c, rest) := by
        simp [next_token, heof, htemp, next_token_loop, hstep]
      have hrun : lexRun (f + 1) l (c :: rest) =
          (LexResult.ok
            (if is_whitespace_char c then Token.Whitespace c else Token.Character c) ::
            (lexRun f (posUpdate l c) rest).1, (lexRun f (posUpdate l c) rest).2) := by
        simp [lexRun, hnt]
      rw [hrun]
      have hih := ih f (posUpdate l c) (by simp at hf; omega)
        ((posUpdate_st l c).trans hst) ((posUpdate_temp l c).trans htemp)
        ((posUpdate_eof l c).trans heof) (fun x hx => hpl x (by simp [hx]))
      simp [hih]

theorem renderedOut_map_plain (s : List Char) :
    renderedOut (s.map fun c =>
      LexResult.ok
        (if is_whitespace_char c then Token.Whitespace c else Token.Character c)) = s := by
  induction s with
  | nil => rfl
  | cons c rest ih =>
    by_cases hw : is_whitespace_char c <;> simp [renderedOut, hw, ih, Token.render]

/-- C1 (amended): lenient-mode lexing of an arbitrary input is lossless up to
the final incomplete fragment: concatenating the textual rendering of every
token produced, followed by the pending fragment of the final state when the
run ends in the end-of-stream error (and by nothing otherwise), reproduces
the original input exactly.  In particular, when no end-of-stream error
occurs, the rendered tokens alone reproduce the input. -/
theorem lenient_round_trip_dropped (s : List Char) :
    renderedOut (lexLenient s).1 ++ droppedRun (lexLenient s) = s := by
  have h := run_lenient (2 * s.length + 2) (disable_errors new) s
    (by simp [fuelMeasure, disable_errors, new])
    rfl
    (by intro h; simp [disable_errors, new] at h)
    (by intro _ d hd; simp [disable_errors, new] at hd)
  simpa [lexLenient, carry, disable_errors, new] using h

/-- C1 (counterexample): lenient-mode lexing of the input consisting of the
single character `<` produces no tokens at all (only the end-of-stream
error), so concatenating the rendered tokens does not reproduce the input —
the `<` is dropped. -/
theorem lenient_round_trip_cex :
    renderedOut (lexLenient ['<']).1 ≠ ['<'] := by decide

/-- C2 (amended): in lenient mode, `next_token` never returns an `Err` upon a
lexical mismatch; the only error it can ever return is the end-of-stream
error, whose message is "Unexpected end of stream". -/
theorem lenient_error_only_end_of_stream (l : PullLexer) (b : List Char) (e : Error)
    (hse : l.skip_errors = true)
    (h : (next_token l b).1 = some (LexResult.error e)) : e.msg = eosMsg := by
  rw [next_token] at h
  cases he : l.eof_handled
  · rw [he] at h
    simp only [Bool.false_eq_true, if_false] at h
    rcases htc : l.temp_char with _ | d
    · rw [htc] at h
      exact loop_err_msg b l e hse htc h
    · rw [htc] at h
      simp only at h
      have hd := read_spec { l with temp_char := none, eof_handled := false } d rfl
      rcases hr : read_next_token { l with temp_char := none, eof_handled := false } d
        with ⟨l1, step⟩
      rw [hr] at hd h
      simp only [DispatchSpec, posUpdate_st, posUpdate_skip, posUpdate_eof,
        posUpdate_temp] at hd
      cases step with
      | some t =>
        cases t with
        | ok tok => simp at h
        | error e2 => exact absurd hd.2.2.2.2.1 (by simp [hse])
      | none => exact loop_err_msg b l1 e (hd.1.trans hse) hd.2.2.2.2.1 h
  · rw [he] at h
    simp at h

/-- C2 (witness): instantiating the amended statement on the lenient-mode run
of the input `<`, whose first call does return an error. -/
theorem lenient_error_only_end_of_stream_witness :
    (Error.mk 0 1 eosMsg).msg = eosMsg :=
  lenient_error_only_end_of_stream (disable_errors new) ['<'] (Error.mk 0 1 eosMsg)
    rfl (by decide)

/-- C2 (counterexample): with errors disabled (lenient mode), `next_token` on
the input `<` does return an `Err` — the end-of-stream error at row 0,
column 1 — so lenient mode does not make errors impossible. -/
theorem lenient_can_return_error_cex :
    (next_token (disable_errors new) ['<']).1 =
      some (LexResult.error (Error.mk 0 1 eosMsg)) := by decide

/-- C3 (amended): for every input containing none of the lexically special
characters handled by `normal` - the characters of the set
< > / = double-quote single-quote ? - right-bracket ampersand semicolon -
every input character is emitted, in source order, as a `Character` token or
a `Whitespace` token, and concatenating the rendered tokens reconstructs the
input. -/
theorem plain_input_tokens (s : List Char) (h : ∀ c ∈ s, isPlainChar c = true) :
    (lexDefault s).1 = s.map (fun c =>
      LexResult.ok
        (if is_whitespace_char c then Token.Whitespace c else Token.Character c)) ∧
    renderedOut (lexDefault s).1 = s := by
  have h1 := plain_run s (2 * s.length + 2) new (by omega) rfl rfl rfl h
  exact ⟨h1, by rw [show (lexDefault s).1 = (lexRun (2 * s.length + 2) new s).1 from rfl,
    h1, renderedOut_map_plain]⟩

/-- C3 (witness): instantiating the amended statement on the input `a b`. -/
theorem plain_input_tokens_witness :
    (lexDefault ['a', ' ', 'b']).1 =
      [LexResult.ok (Token.Character 'a'), LexResult.ok (Token.Whitespace ' '),
       LexResult.ok (Token.Character 'b')] ∧
    renderedOut (lexDefault ['a', ' ', 'b']).1 = ['a', ' ', 'b'] := by
  have h := plain_input_tokens ['a', ' ', 'b'] (by decide)
  simpa using h

/-- C3 (counterexample): the input `>` contains no `<`, yet its single
character is emitted as a `TagEnd` token, not as a `Character` or
`Whitespace` token, refuting the claim as stated. -/
theorem plain_input_tokens_cex :
    ¬((lexDefault ['>']).1.all (fun r =>
        match r with
        | LexResult.ok (Token.Character _) => true
        | LexResult.ok (Token.Whitespace _) => true
        | _ => false) = true ∧
      renderedOut (lexDefault ['>']).1 = ['>']) := by decide

theorem mismatch_err (l : PullLexer) (c : Char) (hse : l.skip_errors = false)
    (hm : mismatch l.st c = true) :
    (read_next_token l c).2 = some (LexResult.error
      { row := (posUpdate l c).row,
        col := ((posUpdate l c).col : Int) - l.st.chunkOf.length - 1,
        msg := "Unexpected token " ++ l.st.chunkOf ++ " before " ++ String.singleton c }) := by
  have hps : (posUpdate l c).skip_errors = false := (posUpdate_skip l c).trans hse
  show (dispatch_char (posUpdate l c) c).2 = _
  rw [dispatch_char, posUpdate_st]
  cases hst : l.st <;> (try (rename_i s; cases s)) <;>
    simp_all [mismatch, tag_opened, comment_or_cdata_or_doctype_started,
      comment_started, cdata_started, doctype_started, handle_error,
      State.chunkOf]

/-- C4: whenever a character does not continue the currently expected fixed
sequence in strict mode, `handle_error` produces an `Err` whose message is
"Unexpected token (fragment) before (char)" for the fragment consumed so far
and the offending character, and whose column is the current column minus the
fragment length minus one (over the integers; the machine computation is on
unsigned words); in particular the strict-mode run of the input `<!x` yields
the error at row 0, column 0 with message "Unexpected token <! before x". -/
theorem strict_mismatch_error (l : PullLexer) (chunk : String) (c : Char)
    (hse : l.skip_errors = false) :
    handle_error l chunk c =
      ({ l with temp_char := some c },
       some (LexResult.error
         { row := l.row, col := (l.col : Int) - chunk.length - 1,
           msg := "Unexpected token " ++ chunk ++ " before " ++ String.singleton c })) ∧
    (next_token new ['<', '!', 'x']).1 =
      some (LexResult.error
        { row := 0, col := 0, msg := "Unexpected token <! before x" }) := by
  constructor
  · simp [handle_error, hse]
  · decide

/-- C4 (witness): the general statement applied to a fresh strict-mode lexer
with fragment `<!` and offending character `x`. -/
theorem strict_mismatch_error_witness :
    handle_error new ("<!") 'x' =
      ({ new with temp_char := some 'x' },
       some (LexResult.error
         { row := new.row, col := (new.col : Int) - ("<!").length - 1,
           msg := "Unexpected token " ++ ("<!") ++ " before " ++ String.singleton 'x' })) :=
  (strict_mismatch_error new ("<!") 'x' rfl).1

/-- C5: when the character source is exhausted before a token completes (no
pushback pending), finalization is determined exactly by the current state:
`TagOpened`, `CommentOrCDataOrDoctypeStarted`, `CommentStarted`, any
`CDataStarted` or `DoctypeStarted` substate, and `CommentClosing`-second
yield the fatal "Unexpected end of stream" error; `ProcessingInstructionClosing`
yields `Character('?')`, `EmptyTagClosing` yields `Character('/')`,
`CommentClosing`-first yields `Character('-')`, `CDataClosing`-first yields
`Character(']')`, `CDataClosing`-second yields `Chunk("]]")`; `Normal` yields
no-more-tokens with no error. -/
theorem eof_finalization (l : PullLexer) (heof : l.eof_handled = false)
    (htemp : l.temp_char = none) :
    (next_token l []).1 =
      (match l.st with
       | State.TagOpened | State.CommentOrCDataOrDoctypeStarted
       | State.CommentStarted | State.CDataStarted _ | State.DoctypeStarted _
       | State.CommentClosing ClosingSubstate.Second =>
         some (LexResult.error { row := l.row, col := (l.col : Int), msg := eosMsg })
       | State.ProcessingInstructionClosing =>
         some (LexResult.ok (Token.Character '?'))
       | State.EmptyTagClosing => some (LexResult.ok (Token.Character '/'))
       | State.CommentClosing ClosingSubstate.First =>
         some (LexResult.ok (Token.Character '-'))
       | State.CDataClosing ClosingSubstate.First =>
         some (LexResult.ok (Token.Character ']'))
       | State.CDataClosing ClosingSubstate.Second =>
         some (LexResult.ok (Token.Chunk ("]]")))
       | State.Normal => none) := by
  rw [next_token]
  rw [heof]
  simp only [Bool.false_eq_true, if_false, htemp]
  cases hst : l.st <;> (try (rename_i s; cases s)) <;>
    simp [next_token_loop, hst, PullLexer.error, eosMsg]

/-- C5 (witness): the finalization table applied to a fresh lexer, whose
state is `Normal`: exhaustion is reported with no error. -/
theorem eof_finalization_witness : (next_token new []).1 = none := by
  have h := eof_finalization new rfl rfl
  simpa using h

/-- C6: after end-of-stream has been finalized once (the `eof_handled` flag
is set), every subsequent `next_token` call returns no-more-tokens
immediately and leaves the whole lexer — its position, state, pushback slot
and mode flag — unchanged, as well as the buffer. -/
theorem eof_idempotent (l : PullLexer) (b : List Char)
    (h : l.eof_handled = true) : next_token l b = (none, l, b) := by
  rw [next_token]
  simp [h]

/-- C6 (witness): a finalized lexer keeps reporting exhaustion on a nonempty
buffer without any mutation. -/
theorem eof_idempotent_witness :
    next_token { new with eof_handled := true } ['a'] =
      (none, { new with eof_handled := true }, ['a']) :=
  eof_idempotent { new with eof_handled := true } ['a'] rfl

/-- C7: in state `TagOpened`, for every input character `c`: `?` emits
`ProcessingInstructionStart`; `/` emits `ClosingTagStart`; `!` advances to
`CommentOrCDataOrDoctypeStarted` with no token; a name character or a
whitespace character (per the spec-modelled classifiers) emits
`OpeningTagStart` and re-queues `c` as pushback; any other character is a
lexical mismatch with fragment `<` (handled by `handle_error`). -/
theorem tag_opened_transitions (l : PullLexer) (c : Char)
    (hst : l.st = State.TagOpened) :
    (c = '?' →
      (read_next_token l c).2 = some (LexResult.ok Token.ProcessingInstructionStart) ∧
      (read_next_token l c).1.st = State.Normal) ∧
    (c = '/' →
      (read_next_token l c).2 = some (LexResult.ok Token.ClosingTagStart) ∧
      (read_next_token l c).1.st = State.Normal) ∧
    (c = '!' →
      (read_next_token l c).2 = none ∧
      (read_next_token l c).1.st = State.CommentOrCDataOrDoctypeStarted ∧
      (read_next_token l c).1.temp_char = l.temp_char) ∧
    (c ≠ '?' → c ≠ '/' → c ≠ '!' → (is_whitespace_char c || is_name_char c) = true →
      (read_next_token l c).2 = some (LexResult.ok Token.OpeningTagStart) ∧
      (read_next_token l c).1.temp_char = some c ∧
      (read_next_token l c).1.st = State.Normal) ∧
    (c ≠ '?' → c ≠ '/' → c ≠ '!' → is_whitespace_char c = false →
      is_name_char c = false →
      read_next_token l c = handle_error (posUpdate l c) ("<") c) := by
  have hpst : (posUpdate l c).st = State.TagOpened := (posUpdate_st l c).trans hst
  have hred : read_next_token l c = tag_opened (posUpdate l c) c := by
    show dispatch_char (posUpdate l c) c = _
    rw [dispatch_char, hpst]
  refine ⟨?_, ?_, ?_, ?_, ?_⟩
  · intro h1
    rw [hred]
    simp [tag_opened, move_to_with, h1]
  · intro h2
    rw [hred]
    simp [tag_opened, move_to_with, h2]
  · intro h3
    rw [hred]
    simp [tag_opened, move_to, h3, posUpdate_temp]
  · intro h1 h2 h3 h4
    rw [hred]
    rcases (Bool.or_eq_true _ _).mp h4 with hw | hn
    · simp [tag_opened, move_to_with_unread, move_to_with, h1, h2, h3, hw]
    · by_cases hw2 : is_whitespace_char c <;>
        simp [tag_opened, move_to_with_unread, move_to_with, h1, h2, h3, hw2, hn]
  · intro h1 h2 h3 h4 h5
    rw [hred]
    simp [tag_opened, h1, h2, h3, h4, h5]

/-- C7 (witness): the `TagOpened` table applied at `?` (emits the processing
instruction start), at `a` (emits `OpeningTagStart` re-queueing `a`) and at
`#` (a mismatch with fragment `<`). -/
theorem tag_opened_transitions_witness :
    (read_next_token { new with st := State.TagOpened } '?').2 =
      some (LexResult.ok Token.ProcessingInstructionStart) ∧
    (read_next_token { new with st := State.TagOpened } 'a').2 =
      some (LexResult.ok Token.OpeningTagStart) ∧
    (read_next_token { new with st := State.TagOpened } 'a').1.temp_char = some 'a' ∧
    read_next_token { new with st := State.TagOpened } '#' =
      handle_error (posUpdate { new with st := State.TagOpened } '#') ("<") '#' :=
  ⟨((tag_opened_transitions { new with st := State.TagOpened } '?' rfl).1 rfl).1,
   ((tag_opened_transitions { new with st := State.TagOpened } 'a' rfl).2.2.2.1
     (by decide) (by decide) (by decide) (by decide)).1,
   ((tag_opened_transitions { new with st := State.TagOpened } 'a' rfl).2.2.2.1
     (by decide) (by decide) (by decide) (by decide)).2.1,
   (tag_opened_transitions { new with st := State.TagOpened } '#' rfl).2.2.2.2
     (by decide) (by decide) (by decide) (by decide) (by decide)⟩

/-- C8: in lenient mode, every lexical mismatch makes `handle_error` return
`Ok(Chunk(fragment))` carrying exactly the fragment consumed so far, reset
the state to `Normal`, and store the offending character in the pushback
slot; end to end, the lenient run of `<!x` first returns `Chunk("<!")`
leaving the lexer in `Normal` with pushback `x`, and the next call returns
`Character('x')`. -/
theorem lenient_mismatch_recovery (l : PullLexer) (chunk : String) (c : Char)
    (hse : l.skip_errors = true) :
    handle_error l chunk c =
      ({ l with temp_char := some c, st := State.Normal },
       some (LexResult.ok (Token.Chunk chunk))) ∧
    ((next_token (disable_errors new) ['<', '!', 'x']).1 =
        some (LexResult.ok (Token.Chunk ("<!"))) ∧
      (next_token (disable_errors new) ['<', '!', 'x']).2.1.st = State.Normal ∧
      (next_token (disable_errors new) ['<', '!', 'x']).2.1.temp_char = some 'x' ∧
      (next_token (next_token (disable_errors new) ['<', '!', 'x']).2.1
          (next_token (disable_errors new) ['<', '!', 'x']).2.2).1 =
        some (LexResult.ok (Token.Character 'x'))) := by
  refine ⟨?_, by decide, by decide, by decide, by decide⟩
  simp [handle_error, move_to_with, hse]

/-- C8 (witness): the general statement applied to a fresh lenient-mode lexer
with fragment `<!` and offending character `x`. -/
theorem lenient_mismatch_recovery_witness :
    handle_error (disable_errors new) ("<!") 'x' =
      ({ disable_errors new with temp_char := some 'x', st := State.Normal },
       some (LexResult.ok (Token.Chunk ("<!")))) :=
  (lenient_mismatch_recovery (disable_errors new) ("<!") 'x' rfl).1

/-- C9: in strict mode, after a lexical-mismatch `Err`, the state machine
state is unchanged and the offending character is held in the pushback slot;
a subsequent `next_token` call (without any mode change) retries the same
transition with the same character and returns an `Err` with the identical
message again. -/
theorem strict_mismatch_retry (l : PullLexer) (b : List Char) (c : Char) (e : Error)
    (hse : l.skip_errors = false) (heof : l.eof_handled = false)
    (htemp : l.temp_char = none)
    (h : (read_next_token l c).2 = some (LexResult.error e)) :
    (read_next_token l c).1.st = l.st ∧
    (read_next_token l c).1.temp_char = some c ∧
    ∃ e2, (next_token (read_next_token l c).1 b).1 = some (LexResult.error e2) ∧
      e2.msg = e.msg := by
  have hd := read_spec l c htemp
  rw [h] at hd
  simp only [DispatchSpec, posUpdate_st, posUpdate_skip, posUpdate_eof,
    posUpdate_temp] at hd
  obtain ⟨hskip, heof1, hrow, hcol, hsef, hst1, htemp1, hrowe, hcole, hmsg, hmm⟩ := hd
  refine ⟨hst1, htemp1, ?_⟩
  set l1 : PullLexer := (read_next_token l c).1 with hl1
  have he1 : l1.eof_handled = false := heof1.trans heof
  have hs1 : l1.skip_errors = false := hskip.trans hse
  have hmm1 : mismatch
      ({ l1 with temp_char := none, eof_handled := false } : PullLexer).st c = true := by
    show mismatch l1.st c = true
    rw [hst1]
    exact hmm
  have h2 := mismatch_err { l1 with temp_char := none, eof_handled := false } c
    (by simpa using hs1) hmm1
  have hpair : read_next_token { l1 with temp_char := none, eof_handled := false } c =
      ((read_next_token { l1 with temp_char := none, eof_handled := false } c).1,
       (read_next_token { l1 with temp_char := none, eof_handled := false } c).2) := rfl
  rw [h2] at hpair
  have hnt1 : (next_token l1 b).1 =
      (read_next_token { l1 with temp_char := none, eof_handled := false } c).2 := by
    rw [next_token, he1, htemp1]
    simp only [Bool.false_eq_true, if_false]
    rw [hpair]
  refine ⟨_, hnt1.trans h2, ?_⟩
  rw [hmsg]
  show ("Unexpected token ") ++ l1.st.chunkOf ++ " before " ++ String.singleton c = _
  rw [hst1]

/-- C9 (witness): the retry statement applied after the mismatch of `x` in
state `CommentOrCDataOrDoctypeStarted` (reached from the strict input `<!`),
with an empty remaining buffer. -/
theorem strict_mismatch_retry_witness :
    ∃ e2, (next_token (read_next_token
        { new with st := State.CommentOrCDataOrDoctypeStarted, col := 2 } 'x').1 []).1 =
      some (LexResult.error e2) ∧
      e2.msg = (Error.mk 0 0 ("Unexpected token <! before x")).msg :=
  (strict_mismatch_retry
    { new with st := State.CommentOrCDataOrDoctypeStarted, col := 2 } [] 'x'
    (Error.mk 0 0 ("Unexpected token <! before x")) rfl rfl rfl (by decide)).2.2

/-- C10: on the strict-mode input consisting of `<`, `!` and a newline, the
offending newline resets the column counter to 0 before the error is built,
so the column computation `col - chunk.len() - 1` (modelled exactly over the
integers) evaluates to `-3`, i.e. the unsigned machine computation
underflows, refuting the claim that the current column is always at least the
fragment length plus one. -/
theorem strict_newline_mismatch_underflow :
    (next_token new ['<', '!', '\n']).1 =
      some (LexResult.error (Error.mk 1 (-3) "Unexpected token <! before \n")) ∧
    (-3 : Int) < 0 :=
  ⟨by decide, by decide⟩

end XmlLexer
